import Mathlib

/-!
Verification of the auto-lang C front-end and interpreter (src/autoc).

This file gives a shallow embedding of the components the claims touch:
the value runtime (value.c), the lexer (lexer.c), the Pratt parser
(parser.c), the scope manager (universe.c) and the tree-walking
evaluator (eval.c), and proves the frozen claims about them.

Modelling conventions:
* C `int32_t` payloads are modelled as `Int` and `uint32_t` as `Nat`;
  unsigned arithmetic wraps modulo 2^32 exactly as in C (where it is
  defined behaviour); signed overflow is undefined behaviour in C and is
  not modelled (no claim exercises it).
* C `double` payloads are modelled as `ℚ`.  The claims settled here only
  use doubles through zero tests, same-kind comparisons and promotion of
  small integers, all of which are exact in binary64, so the rounding
  model is irrelevant to them.
* Heap allocation and pointer mutation become explicit state passing;
  loops whose termination depends on runtime state take a fuel argument
  and return `Option` (`none` models divergence / fuel exhaustion).
* `stdout` output (the `print` built-in) is threaded as a `String`
  accumulator; debug output to `stderr` is not modelled.
-/

set_option maxRecDepth 10000

namespace AutoLang

/-! ## Value runtime (value.h / value.c) -/

/-- The `ValueKind` tag enumeration from value.h.  `VAL_FLOAT` exists in
the C enum but no constructor ever produces it (value_float builds
`VAL_DOUBLE`), so it is carried here for kind comparisons only. -/
inductive ValueKind where
  | nil | void | bool | byte | int | uint | float | double
  | char | str | array | object | range | error
deriving DecidableEq, Repr

/-- Runtime `Value` from value.h: a tagged union.  Arrays and objects own
their elements; `range` carries `int32_t` bounds and the inclusivity
flag. -/
inductive Value where
  | nil
  | void
  | bool (b : Bool)
  | byte (b : Nat)
  | int (i : Int)
  | uint (u : Nat)
  | double (q : ℚ)
  | char (c : Char)
  | str (s : String)
  | array (elems : List Value)
  | object (pairs : List (String × Value))
  | range (start stop : Int) (eq : Bool)
  | error (msg : String)

/-- Kind tag of a value (the `kind` field every constructor sets). -/
def valueKind : Value → ValueKind
  | .nil => .nil
  | .void => .void
  | .bool _ => .bool
  | .byte _ => .byte
  | .int _ => .int
  | .uint _ => .uint
  | .double _ => .double
  | .char _ => .char
  | .str _ => .str
  | .array _ => .array
  | .object _ => .object
  | .range _ _ _ => .range
  | .error _ => .error

mutual
/-- value_clone from value.c.  The C switch handles NIL, VOID, BOOL,
BYTE, INT, UINT, DOUBLE, CHAR, STR, ARRAY (element-wise clone) and
RANGE; every other tag — in particular VAL_OBJECT and VAL_ERROR — falls
through to `default: return value_nil();`. -/
def value_clone : Value → Value
  | .nil => .nil
  | .void => .void
  | .bool b => .bool b
  | .byte b => .byte b
  | .int i => .int i
  | .uint u => .uint u
  | .double q => .double q
  | .char c => .char c
  | .str s => .str s
  | .array es => .array (value_clone_list es)
  | .range a b e => .range a b e
  | .object _ => .nil
  | .error _ => .nil

/-- Element-wise clone of an array payload (the ARRAY loop in
value_clone). -/
def value_clone_list : List Value → List Value
  | [] => []
  | v :: rest => value_clone v :: value_clone_list rest
end

/-- value_is_true from value.c. -/
def value_is_true : Value → Bool
  | .bool b => b
  | .nil => false
  | .int i => i != 0
  | .uint u => u != 0
  | .double q => q != 0
  | .str s => s.length > 0
  | _ => true

/-- Wrap an unsigned 32-bit result (C uint32_t arithmetic is defined to
wrap modulo 2^32). -/
def wrapU32 (i : Int) : Nat := (i % 4294967296).toNat

/-- value_add from value.c: same-kind numeric pairs, Int/Double
promotion, string concatenation; otherwise a type-error Value. -/
def value_add : Value → Value → Value
  | .int a, .int b => .int (a + b)
  | .uint a, .uint b => .uint (wrapU32 ((a : Int) + b))
  | .double a, .double b => .double (a + b)
  | .int a, .double b => .double ((a : ℚ) + b)
  | .double a, .int b => .double (a + (b : ℚ))
  | .str a, .str b => .str (a ++ b)
  | _, _ => .error "type error in +"

/-- value_sub from value.c. -/
def value_sub : Value → Value → Value
  | .int a, .int b => .int (a - b)
  | .uint a, .uint b => .uint (wrapU32 ((a : Int) - b))
  | .double a, .double b => .double (a - b)
  | .int a, .double b => .double ((a : ℚ) - b)
  | .double a, .int b => .double (a - (b : ℚ))
  | _, _ => .error "type error in -"

/-- value_mul from value.c. -/
def value_mul : Value → Value → Value
  | .int a, .int b => .int (a * b)
  | .uint a, .uint b => .uint (wrapU32 ((a : Int) * b))
  | .double a, .double b => .double (a * b)
  | .int a, .double b => .double ((a : ℚ) * b)
  | .double a, .int b => .double (a * (b : ℚ))
  | _, _ => .error "type error in *"

/-- value_div from value.c: every numeric pairing checks its divisor for
zero and returns an Error value instead of dividing.  Signed division
uses C truncation-toward-zero (`Int.div`). -/
def value_div : Value → Value → Value
  | .int a, .int b =>
      if b = 0 then .error "division by zero" else .int (Int.tdiv a b)
  | .uint a, .uint b =>
      if b = 0 then .error "division by zero" else .uint (a / b)
  | .double a, .double b =>
      if b = 0 then .error "division by zero" else .double (a / b)
  | .int a, .double b =>
      if b = 0 then .error "division by zero" else .double ((a : ℚ) / b)
  | .double a, .int b =>
      if b = 0 then .error "division by zero" else .double (a / (b : ℚ))
  | _, _ => .error "type error in /"

/-- value_neg from value.c. -/
def value_neg : Value → Value
  | .int a => .int (-a)
  | .double a => .double (-a)
  | _ => .error "type error in unary -"

/-- value_not from value.c. -/
def value_not (a : Value) : Value := .bool (!value_is_true a)

/-- value_eq from value.c: differing kinds compare equal only for the
Int/Double mix (compared as doubles), otherwise false; same kinds
compare payloads for BOOL/INT/UINT/DOUBLE/STR, NIL equals NIL, and every
other same-kind pair is false.  The result is always a Bool value. -/
def value_eq (a b : Value) : Value :=
  if valueKind a ≠ valueKind b then
    match a, b with
    | .int i, .double q => .bool (decide ((i : ℚ) = q))
    | .double q, .int i => .bool (decide (q = (i : ℚ)))
    | _, _ => .bool false
  else
    match a, b with
    | .bool x, .bool y => .bool (x == y)
    | .int x, .int y => .bool (x == y)
    | .uint x, .uint y => .bool (x == y)
    | .double x, .double y => .bool (decide (x = y))
    | .str x, .str y => .bool (x == y)
    | .nil, .nil => .bool true
    | _, _ => .bool false

/-- value_neq from value.c: negated truthiness of value_eq. -/
def value_neq (a b : Value) : Value := .bool (!value_is_true (value_eq a b))

/-- value_lt from value.c: only exact same-kind numeric pairs compare;
everything else is a type-error Value. -/
def value_lt : Value → Value → Value
  | .int a, .int b => .bool (decide (a < b))
  | .uint a, .uint b => .bool (decide (a < b))
  | .double a, .double b => .bool (decide (a < b))
  | _, _ => .error "type error in <"

/-- value_gt from value.c. -/
def value_gt : Value → Value → Value
  | .int a, .int b => .bool (decide (a > b))
  | .uint a, .uint b => .bool (decide (a > b))
  | .double a, .double b => .bool (decide (a > b))
  | _, _ => .error "type error in >"

/-- value_le from value.c. -/
def value_le : Value → Value → Value
  | .int a, .int b => .bool (decide (a ≤ b))
  | .uint a, .uint b => .bool (decide (a ≤ b))
  | .double a, .double b => .bool (decide (a ≤ b))
  | _, _ => .error "type error in <="

/-- value_ge from value.c. -/
def value_ge : Value → Value → Value
  | .int a, .int b => .bool (decide (a ≥ b))
  | .uint a, .uint b => .bool (decide (a ≥ b))
  | .double a, .double b => .bool (decide (a ≥ b))
  | _, _ => .error "type error in >="

/-- Single-quote character, used by value_repr for chars. -/
def squote : String := String.singleton (Char.ofNat 39)

/-- Hex digit characters for the byte representation. -/
def hexDigit (n : Nat) : Char :=
  if n < 10 then Char.ofNat (48 + n) else Char.ofNat (55 + n)

/-- Rendering of a double payload.  The C code formats with printf "%g"
over binary64; that decimal rendering is not reproduced here (no claim
depends on how a double prints), so the rational payload is shown
directly. -/
def reprDouble (q : ℚ) : String :=
  if q.den = 1 then toString q.num else toString q.num ++ "/" ++ toString q.den

mutual
/-- value_repr from value.c, the canonical display string.  Caveat kept
out of the model: the C function renders into one shared static buffer,
so rendering a container whose elements also use the buffer clobbers it
(undefined behaviour); this embedding renders the intended recursion.
Objects fall to the C default arm "(unknown)". -/
def value_repr : Value → String
  | .nil => "nil"
  | .void => "void"
  | .bool b => if b then "true" else "false"
  | .byte b => "0x" ++ String.singleton (hexDigit (b / 16 % 16)) ++ String.singleton (hexDigit (b % 16))
  | .int i => toString i
  | .uint u => toString u ++ "u"
  | .double q => reprDouble q
  | .char c => squote ++ String.singleton c ++ squote
  | .str s => s
  | .array es => "[" ++ value_repr_elems es ++ "]"
  | .range a b e => toString a ++ (if e then "..=" else "..") ++ toString b
  | .error m => m
  | .object _ => "(unknown)"

/-- Comma-space joined element representations for value_repr on arrays. -/
def value_repr_elems : List Value → String
  | [] => ""
  | [v] => value_repr v
  | v :: rest => value_repr v ++ ", " ++ value_repr_elems rest
end

/-! ## Tokens and lexer (token.h / lexer.c) -/

/-- TokenKind from token.h (full enumeration). -/
inductive TokenKind where
  | int | uint | u8 | i8 | float | double | str | cstr | char | ident
  | lparen | rparen | lsquare | rsquare | lbrace | rbrace
  | comma | semi | newline
  | add | sub | star | div | not | lt | gt | le | ge
  | asn | eq | neq | addeq | subeq | muleq | diveq
  | dot | range | rangeeq | colon | vbar
  | commentLine | commentContent | commentStart | commentEnd
  | arrow | doubleArrow | question | at | hash
  | kwTrue | kwFalse | kwNil | kwNull | kwIf | kwElse | kwFor | kwWhen
  | kwBreak | kwIs | kwVar | kwIn | kwFn | kwType | kwUnion | kwTag
  | kwLet | kwMut | kwHas | kwUse | kwAs | kwEnum | kwOn | kwAlias
  | fstrStart | fstrPart | fstrEnd | fstrNote
  | grid
  | eof
deriving DecidableEq, Repr

/-- Token from token.h.  The `pos` diagnostics field is not modelled (no
claim mentions source positions); `text` is the owned lexeme copy. -/
structure Token where
  kind : TokenKind
  text : String
deriving DecidableEq, Repr

/-- The NUL character lexer_peek returns past the end of input. -/
def nulChar : Char := Char.ofNat 0

/-- Backtick character (starts a tick-delimited format string). -/
def btick : Char := Char.ofNat 96

/-- Left brace character. -/
def lbraceChar : Char := Char.ofNat 123

/-- Right brace character. -/
def rbraceChar : Char := Char.ofNat 125

/-- Lexer state from lexer.h: input text, cursor, the format-string
interpolation marker (default `$`) and the FIFO token buffer.  The
line/column fields and the `last` token cache are not modelled (they
only feed the unmodelled `pos` diagnostics). -/
structure Lexer where
  input : List Char
  pos : Nat
  fstrNote : Char
  buffer : List Token
deriving Repr

/-- lexer_new from lexer.c. -/
def lexer_new (s : String) : Lexer :=
  { input := s.data, pos := 0, fstrNote := '$', buffer := [] }

/-- Character at an absolute offset, NUL past the end (lexer_peek). -/
def lexChar (input : List Char) (i : Nat) : Char := input.getD i nulChar

/-- lexer_current from lexer.c. -/
def lexer_current (lx : Lexer) : Char := lexChar lx.input lx.pos

/-- lexer_advance from lexer.c (no-op at end of input). -/
def lexer_advance (lx : Lexer) : Lexer :=
  if lx.pos < lx.input.length then { lx with pos := lx.pos + 1 } else lx

/-- Append a token to the lookahead FIFO (lexer_buffer_push). -/
def bufferPush (lx : Lexer) (t : Token) : Lexer :=
  { lx with buffer := lx.buffer ++ [t] }

/-- Pop the front of the FIFO; the empty case is unreachable at its call
sites (a START token is always buffered first) and returns EOF. -/
def popFrontTok (lx : Lexer) : Token × Lexer :=
  match lx.buffer with
  | [] => (⟨.eof, ""⟩, lx)
  | t :: rest => (t, { lx with buffer := rest })

/-- Whitespace skipped by the lexer: space, tab, carriage return (not
newline). -/
def isWsCh (c : Char) : Bool := c = ' ' ∨ c = '\t' ∨ c = '\r'

/-- ASCII digit test (isdigit). -/
def isDigitCh (c : Char) : Bool := 48 ≤ c.toNat ∧ c.toNat ≤ 57

/-- ASCII hex digit test (isxdigit). -/
def isHexDigitCh (c : Char) : Bool :=
  isDigitCh c ∨ (65 ≤ c.toNat ∧ c.toNat ≤ 70) ∨ (97 ≤ c.toNat ∧ c.toNat ≤ 102)

/-- ASCII letter test (isalpha). -/
def isAlphaCh (c : Char) : Bool :=
  (65 ≤ c.toNat ∧ c.toNat ≤ 90) ∨ (97 ≤ c.toNat ∧ c.toNat ≤ 122)

/-- ASCII alphanumeric test (isalnum). -/
def isAlnumCh (c : Char) : Bool := isAlphaCh c ∨ isDigitCh c

/-- lexer_skip_whitespace: advance the cursor over spaces/tabs/CRs.  The
loop advances at every step so input-length fuel suffices. -/
def skip_ws : Nat → Lexer → Lexer
  | 0, lx => lx
  | n+1, lx =>
      if lx.pos < lx.input.length ∧ isWsCh (lexer_current lx) then
        skip_ws n (lexer_advance lx)
      else lx

/-- Lexeme slice `input[start..stop)` as an owned string. -/
def slice (input : List Char) (start stop : Nat) : String :=
  String.mk ((input.drop start).take (stop - start))

/-- The digit/underscore/dot scanning loop of lexer_number; returns the
position after the numeric body and the has-dot flag.  Underscores are
skipped; one dot is accepted only if followed by a digit; digits are
restricted to hex in hex mode. -/
def num_scan (input : List Char) : Nat → Nat → Bool → Bool → Nat × Bool
  | 0, pos, hasDot, _ => (pos, hasDot)
  | n+1, pos, hasDot, isHex =>
      if pos < input.length then
        let c := lexChar input pos
        if c = '_' then num_scan input n (pos+1) hasDot isHex
        else if c = '.' ∧ ¬hasDot then
          (if isDigitCh (lexChar input (pos+1)) then num_scan input n (pos+1) true isHex
           else (pos, hasDot))
        else if (if isHex then isHexDigitCh c else isDigitCh c) then
          num_scan input n (pos+1) hasDot isHex
        else (pos, hasDot)
      else (pos, hasDot)

/-- lexer_number from lexer.c: optional 0x prefix, digit body with `_`
separators, optional type suffix (f/d/u[8]/i[8]); a decimal point forces
the float kind.  The token text is the raw lexeme slice — it keeps the
underscores (and any suffix). -/
def lexer_number (lx : Lexer) : Token × Lexer :=
  let start := lx.pos
  let isHex := lexer_current lx = '0' ∧ lexChar lx.input (lx.pos + 1) = 'x'
  let pos0 := if isHex then lx.pos + 2 else lx.pos
  let sc := num_scan lx.input (lx.input.length + 1) pos0 false isHex
  let pos1 := sc.1
  let hasDot := sc.2
  let kp : TokenKind × Nat :=
    if pos1 < lx.input.length then
      let c := lexChar lx.input pos1
      if c = 'f' then (.float, pos1 + 1)
      else if c = 'd' then (.double, pos1 + 1)
      else if c = 'u' then
        (if lexChar lx.input (pos1 + 1) = '8' then (.u8, pos1 + 2) else (.uint, pos1 + 1))
      else if c = 'i' then
        (if lexChar lx.input (pos1 + 1) = '8' then (.i8, pos1 + 2) else (.int, pos1 + 1))
      else (.int, pos1)
    else (.int, pos1)
  let kind := if hasDot then .float else kp.1
  (⟨kind, slice lx.input start kp.2⟩, { lx with pos := kp.2 })

/-- The scanning loop of lexer_string: stop at an unescaped quote or end
of input; a backslash followed by any character skips both. -/
def str_scan (input : List Char) : Nat → Nat → Nat
  | 0, pos => pos
  | n+1, pos =>
      if pos < input.length then
        let c := lexChar input pos
        if c = '"' then pos
        else if c = '\\' ∧ lexChar input (pos + 1) ≠ nulChar then str_scan input n (pos + 2)
        else str_scan input n (pos + 1)
      else pos

/-- lexer_string from lexer.c; the token text excludes the quotes, and an
unterminated string tolerantly returns what was scanned. -/
def lexer_string (lx : Lexer) : Token × Lexer :=
  let lx1 := lexer_advance lx
  let start := lx1.pos
  let stop := str_scan lx1.input (lx1.input.length + 1) start
  let tok : Token := ⟨.str, slice lx1.input start stop⟩
  let lx2 := { lx1 with pos := stop }
  (tok, if lexChar lx2.input stop = '"' then lexer_advance lx2 else lx2)

/-- The scanning loop of lexer_cstring (no escape handling). -/
def cstr_scan (input : List Char) : Nat → Nat → Nat
  | 0, pos => pos
  | n+1, pos =>
      if pos < input.length then
        if lexChar input pos = '"' then pos else cstr_scan input n (pos + 1)
      else pos

/-- lexer_cstring from lexer.c: skips the `c` and the quote, scans to the
closing quote. -/
def lexer_cstring (lx : Lexer) : Token × Lexer :=
  let lx1 := lexer_advance (lexer_advance lx)
  let start := lx1.pos
  let stop := cstr_scan lx1.input (lx1.input.length + 1) start
  let tok : Token := ⟨.cstr, slice lx1.input start stop⟩
  let lx2 := { lx1 with pos := stop }
  (tok, if lexChar lx2.input stop = '"' then lexer_advance lx2 else lx2)

/-- lexer_char from lexer.c: one (possibly escaped) byte, tolerant of a
missing closing quote; the token text is the single byte at the start. -/
def lexer_char (lx : Lexer) : Token × Lexer :=
  let lx1 := lexer_advance lx
  let start := lx1.pos
  if lx1.pos < lx1.input.length then
    let c := lexer_current lx1
    let lx2 := lexer_advance lx1
    let lx3 := if c = '\\' ∧ lx2.pos < lx2.input.length then lexer_advance lx2 else lx2
    let lx4 :=
      if lx3.pos < lx3.input.length ∧ lexer_current lx3 = '\'' then lexer_advance lx3 else lx3
    (⟨.char, slice lx1.input start (start + 1)⟩, lx4)
  else (⟨.char, slice lx1.input start (start + 1)⟩, lx1)

/-- The identifier-body loop (while alnum or underscore, advance). -/
def ident_scan (input : List Char) : Nat → Nat → Nat
  | 0, pos => pos
  | n+1, pos =>
      if pos < input.length ∧ (isAlnumCh (lexChar input pos) ∨ lexChar input pos = '_') then
        ident_scan input n (pos + 1)
      else pos

/-- The exact-length keyword table of lexer_identifier. -/
def keywordKind (s : String) : TokenKind :=
  if s = "true" then .kwTrue
  else if s = "false" then .kwFalse
  else if s = "nil" then .kwNil
  else if s = "null" then .kwNull
  else if s = "if" then .kwIf
  else if s = "else" then .kwElse
  else if s = "for" then .kwFor
  else if s = "when" then .kwWhen
  else if s = "is" then .kwIs
  else if s = "var" then .kwVar
  else if s = "in" then .kwIn
  else if s = "fn" then .kwFn
  else if s = "type" then .kwType
  else if s = "union" then .kwUnion
  else if s = "tag" then .kwTag
  else if s = "let" then .kwLet
  else if s = "mut" then .kwMut
  else if s = "has" then .kwHas
  else if s = "use" then .kwUse
  else if s = "as" then .kwAs
  else if s = "enum" then .kwEnum
  else if s = "on" then .kwOn
  else if s = "alias" then .kwAlias
  else if s = "break" then .kwBreak
  else if s = "grid" then .grid
  else .ident

/-- lexer_identifier from lexer.c: first char must be a letter or
underscore (callers guarantee it; otherwise an EOF-kind token is
returned without advancing), then the alnum/underscore body, then the
keyword table. -/
def lexer_identifier (lx : Lexer) : Token × Lexer :=
  if lx.pos < lx.input.length ∧ (isAlphaCh (lexer_current lx) ∨ lexer_current lx = '_') then
    let start := lx.pos
    let pos1 := ident_scan lx.input (lx.input.length + 1) (lx.pos + 1)
    let text := slice lx.input start pos1
    (⟨keywordKind text, text⟩, { lx with pos := pos1 })
  else (⟨.eof, ""⟩, lx)

/-- The to-end-of-line scan of a `//` comment. -/
def line_comment_scan (input : List Char) : Nat → Nat → Nat
  | 0, pos => pos
  | n+1, pos =>
      if pos < input.length ∧ lexChar input pos ≠ '\n' then line_comment_scan input n (pos + 1)
      else pos

/-- The scan of a block comment body: position of the `*` of the closing
marker, or none when unclosed. -/
def block_comment_scan (input : List Char) : Nat → Nat → Option Nat
  | 0, _ => none
  | n+1, pos =>
      if pos < input.length then
        if lexChar input pos = '*' ∧ lexChar input (pos + 1) = '/' then some pos
        else block_comment_scan input n (pos + 1)
      else none

/-- lexer_comment from lexer.c: `//` buffers the content token and
returns a COMMENT_LINE token; a block comment buffers CONTENT, START and
END and returns the first buffered token (the content); an unclosed
block comment degrades to an EOF token; a bare `/` is the DIV
operator. -/
def lexer_comment (lx : Lexer) : Token × Lexer :=
  let lx1 := lexer_advance lx
  if lexer_current lx1 = '/' then
    let lx2 := lexer_advance lx1
    let start := lx2.pos
    let stop := line_comment_scan lx2.input (lx2.input.length + 1) start
    let lx3 := bufferPush { lx2 with pos := stop } ⟨.commentContent, slice lx2.input start stop⟩
    (⟨.commentLine, "//"⟩, lx3)
  else if lexer_current lx1 = '*' then
    let lx2 := lexer_advance lx1
    let start := lx2.pos
    match block_comment_scan lx2.input (lx2.input.length + 1) start with
    | some starPos =>
        let lx3 := bufferPush { lx2 with pos := starPos }
          ⟨.commentContent, slice lx2.input start starPos⟩
        let lx4 := bufferPush lx3 ⟨.commentStart, "/*"⟩
        let lx5 := bufferPush { lx4 with pos := starPos + 2 } ⟨.commentEnd, "*/"⟩
        popFrontTok lx5
    | none => (⟨.eof, ""⟩, { lx2 with pos := lx2.input.length })
  else (⟨.div, "/"⟩, lx1)

/-- The punctuation/operator dispatch switch of lexer_next: longest-match
greedy scan.  Returns none for characters the switch does not cover. -/
def lexer_punct (lx : Lexer) : Option (Token × Lexer) :=
  let c := lexer_current lx
  let lx1 := lexer_advance lx
  if c = '(' then some (⟨.lparen, "("⟩, lx1)
  else if c = ')' then some (⟨.rparen, ")"⟩, lx1)
  else if c = '[' then some (⟨.lsquare, "["⟩, lx1)
  else if c = ']' then some (⟨.rsquare, "]"⟩, lx1)
  else if c = lbraceChar then some (⟨.lbrace, "\x7b"⟩, lx1)
  else if c = rbraceChar then some (⟨.rbrace, "\x7d"⟩, lx1)
  else if c = ',' then some (⟨.comma, ","⟩, lx1)
  else if c = ';' then some (⟨.semi, ";"⟩, lx1)
  else if c = ':' then some (⟨.colon, ":"⟩, lx1)
  else if c = '|' then some (⟨.vbar, "|"⟩, lx1)
  else if c = '?' then some (⟨.question, "?"⟩, lx1)
  else if c = '@' then some (⟨.at, "@"⟩, lx1)
  else if c = '#' then some (⟨.hash, "#"⟩, lx1)
  else if c = '+' then
    some (if lexer_current lx1 = '=' then (⟨.addeq, "+="⟩, lexer_advance lx1)
          else (⟨.add, "+"⟩, lx1))
  else if c = '-' then
    some (if lexer_current lx1 = '>' then (⟨.arrow, "->"⟩, lexer_advance lx1)
          else if lexer_current lx1 = '=' then (⟨.subeq, "-="⟩, lexer_advance lx1)
          else (⟨.sub, "-"⟩, lx1))
  else if c = '*' then
    some (if lexer_current lx1 = '=' then (⟨.muleq, "*="⟩, lexer_advance lx1)
          else (⟨.star, "*"⟩, lx1))
  else if c = '=' then
    some (if lexer_current lx1 = '=' then (⟨.eq, "=="⟩, lexer_advance lx1)
          else if lexer_current lx1 = '>' then (⟨.doubleArrow, "=>"⟩, lexer_advance lx1)
          else (⟨.asn, "="⟩, lx1))
  else if c = '!' then
    some (if lexer_current lx1 = '=' then (⟨.neq, "!="⟩, lexer_advance lx1)
          else (⟨.not, "!"⟩, lx1))
  else if c = '<' then
    some (if lexer_current lx1 = '=' then (⟨.le, "<="⟩, lexer_advance lx1)
          else (⟨.lt, "<"⟩, lx1))
  else if c = '>' then
    some (if lexer_current lx1 = '=' then (⟨.ge, ">="⟩, lexer_advance lx1)
          else (⟨.gt, ">"⟩, lx1))
  else if c = '.' then
    some (if lexer_current lx1 = '.' then
            (let lx2 := lexer_advance lx1
             if lexer_current lx2 = '=' then (⟨.rangeeq, "..="⟩, lexer_advance lx2)
             else (⟨.range, ".."⟩, lx2))
          else (⟨.dot, "."⟩, lx1))
  else none

/-- The three mutually recursive lexing routines at one fuel level:
lexer_next, the format-string scanning loop of lexer_fstr, and its
`${expr}` brace sub-loop.  The mutual recursion through the fuel is tied
with `Nat.rec` below (each recursive call runs at the previous fuel
level); this keeps kernel reduction of concrete runs lazy. -/
structure LexFns where
  next : Lexer → Option (Token × Lexer)
  fscan : Lexer → Bool → Char → List Char → Option (Token × Lexer)
  fbrace : Lexer → Int → Option Lexer

/-- lexer_next from lexer.c (body, one fuel level).  Pops the FIFO
buffer first; otherwise skips whitespace and dispatches on the current
character (newline, number, string/cstring/format-string, char,
comment-or-div, punctuation, identifier/keyword, tolerant EOF-kind token
for anything else).  The format-string branches perform the lexer_fstr
prologue (back up over the `f`, skip the opening delimiter, buffer
FSTR_START) and enter the scanning loop. -/
def lexer_next_body (prev : LexFns) (lx0 : Lexer) : Option (Token × Lexer) :=
  match lx0.buffer with
  | t :: rest => some (t, { lx0 with buffer := rest })
  | [] =>
    let lx := skip_ws (lx0.input.length + 1) lx0
    if lx.pos ≥ lx.input.length then some (⟨.eof, ""⟩, lx)
    else
      let c := lexer_current lx
      if c = '\n' then some (⟨.newline, "\n"⟩, lexer_advance lx)
      else if isDigitCh c then some (lexer_number lx)
      else if c = '"' then
        if lx.pos > 0 ∧ lexChar lx.input (lx.pos - 1) = 'c' then
          some (lexer_cstring { lx with pos := lx.pos - 1 })
        else if lx.pos > 0 ∧ lexChar lx.input (lx.pos - 1) = 'f' then
          let lx1 := { lx with pos := lx.pos - 1 }
          let lx2 := lexer_advance (lexer_advance lx1)
          let lx3 := bufferPush lx2 ⟨.fstrStart, "f\""⟩
          prev.fscan lx3 false '"' []
        else some (lexer_string lx)
      else if c = btick then
        let lx1 := lexer_advance lx
        let lx2 := bufferPush lx1 ⟨.fstrStart, String.singleton btick⟩
        prev.fscan lx2 true btick []
      else if c = '\'' then some (lexer_char lx)
      else if c = '/' then some (lexer_comment lx)
      else
        match lexer_punct lx with
        | some r => some r
        | none =>
          if isAlphaCh c ∨ c = '_' then some (lexer_identifier lx)
          else some (⟨.eof, String.singleton c⟩, lexer_advance lx)

/-- The run-by-run scanning loop of lexer_fstr (body, one fuel level):
literal text accumulates; the interpolation marker flushes a FSTR_PART,
emits FSTR_NOTE and then either a brace-balanced token scan or a bare
identifier; the closing quote flushes remaining text, emits FSTR_END and
returns the first buffered token. -/
def fstr_scan_body (prev : LexFns) :
    Nat → Lexer → Bool → Char → List Char → Option (Token × Lexer)
  | 0, _, _, _, _ => none
  | fuel+1, lx0, isTick, endChar, text =>
    if lx0.pos < lx0.input.length then
      let c := lexer_current lx0
      if c = endChar then
        let lx := if text.length > 0 then bufferPush lx0 ⟨.fstrPart, String.mk text⟩ else lx0
        let lx1 := lexer_advance lx
        let lx2 := bufferPush lx1 ⟨.fstrEnd, if isTick then String.singleton btick else "\""⟩
        some (popFrontTok lx2)
      else if c = lx0.fstrNote then
        let lx := if text.length > 0 then bufferPush lx0 ⟨.fstrPart, String.mk text⟩ else lx0
        let lx1 := bufferPush lx ⟨.fstrNote, String.singleton c⟩
        let lx2 := lexer_advance lx1
        if lexer_current lx2 = lbraceChar then
          let lx3 := bufferPush lx2 ⟨.lbrace, "\x7b"⟩
          let lx4 := lexer_advance lx3
          match prev.fbrace lx4 1 with
          | none => none
          | some lx5 => prev.fscan lx5 isTick endChar []
        else
          let istart := lx2.pos
          let pos1 := ident_scan lx2.input (lx2.input.length + 1) lx2.pos
          let lx3 := bufferPush { lx2 with pos := pos1 } ⟨.ident, slice lx2.input istart pos1⟩
          prev.fscan lx3 isTick endChar []
      else fstr_scan_body prev fuel (lexer_advance lx0) isTick endChar (text ++ [c])
    else
      let lx := if text.length > 0 then bufferPush lx0 ⟨.fstrPart, String.mk text⟩ else lx0
      some (popFrontTok lx)

/-- The `${expr}` sub-scan of lexer_fstr (body, one fuel level): reads
the current character to maintain brace depth, then pushes whatever
lexer_next returns into the buffer, until depth reaches zero.  Note that
lexer_next pops the FIFO buffer first — and the buffer is never empty
here (FSTR_START and LBRACE were just buffered), so each iteration
merely rotates the buffer and the cursor never advances: with a
non-empty buffer and a current character that is not a brace this loop
never terminates. -/
def fstr_brace_loop_body (prev : LexFns) : Nat → Lexer → Int → Option Lexer
  | 0, _, _ => none
  | fuel+1, lx, depth =>
    if lx.pos < lx.input.length ∧ depth > 0 then
      let bc := lexer_current lx
      let depth1 := if bc = lbraceChar then depth + 1 else depth
      let depth2 := if bc = rbraceChar then depth1 - 1 else depth1
      match prev.next lx with
      | none => none
      | some (t, lx') =>
        let lx2 := bufferPush lx' t
        if depth2 = 0 then some lx2 else fstr_brace_loop_body prev fuel lx2 depth2
    else some lx

/-- All-none lex routines (fuel exhausted). -/
def lexFnsZero : LexFns :=
  { next := fun _ => none, fscan := fun _ _ _ _ => none, fbrace := fun _ _ => none }

/-- The lexing routines at a given fuel level, tying the mutual
recursion: every cross-call runs at the previous level, and the two
internal loops (format-string text scan, brace sub-scan) spend one unit
of the level index per iteration. -/
def lexFns : Nat → LexFns :=
  fun n => Nat.rec lexFnsZero
    (fun m prev =>
      { next := lexer_next_body prev,
        fscan := fstr_scan_body prev m,
        fbrace := fstr_brace_loop_body prev m }) n

/-- lexer_next from lexer.c, fuelled; `none` models fuel exhaustion (in
particular a diverging scan). -/
def lexer_next (fuel : Nat) (lx : Lexer) : Option (Token × Lexer) :=
  (lexFns fuel).next lx

/-- Drive lexer_next to EOF collecting the produced tokens (the stream
the parser consumes).  The EOF token itself is not collected. -/
def tokenize : Nat → Lexer → List Token → Option (List Token)
  | 0, _, _ => none
  | fuel+1, lx, acc =>
    match lexer_next fuel lx with
    | none => none
    | some (t, lx') =>
      if t.kind = .eof then some acc else tokenize fuel lx' (acc ++ [t])

/-- Lex a whole source string into its token list. -/
def lex_program (s : String) : Option (List Token) :=
  tokenize (s.length + 16) (lexer_new s) []

/-! ## AST (ast.h) and parser (parser.c) -/

mutual
/-- Expr from ast.h, restricted to the variants this parser and evaluator
construct or inspect (EXPR_REF, EXPR_RANGE and EXPR_PAIR exist in the C
enum but are never built or evaluated).  `bina` stores the operator as
the TokenKind the parser writes into the int `op` field; `unary` records
no operator because the C parser drops it (a documented gap).  Child
statement pointers that may be NULL in C are Option. -/
inductive Expr where
  | byteE (b : Nat)
  | intE (i : Int)
  | uintE (u : Nat)
  | i8E (i : Int)
  | u8E (u : Nat)
  | i64E (i : Int)
  | floatE (q : ℚ)
  | doubleE (q : ℚ)
  | boolE (b : Bool)
  | charE (c : Char)
  | strE (s : String)
  | cstrE (s : String)
  | identE (name : String)
  | unary (operand : Expr)
  | bina (left : Expr) (op : TokenKind) (right : Expr)
  | arrayE (elems : List Expr)
  | objectE (pairs : List (String × Expr))
  | blockE (stmts : List Stmt)
  | callE (callee : Expr) (args : List Expr)
  | indexE (base : Expr) (idx : Expr)
  | ifE (cond : Expr) (thenB : Expr) (elseB : Option Expr)
  | nilE
  | nullE

/-- Stmt from ast.h, restricted to the variants the parser builds (FN,
EMPTY_LINE and BREAK are never constructed; the evaluator's default arm
returns Void for them). -/
inductive Stmt where
  | exprS (e : Expr)
  | ifS (cond : Expr) (thenB : Option Stmt) (elseB : Option Stmt)
  | forS (varName : String) (iter : Expr) (body : Option Stmt)
  | storeS (name : String) (init : Expr)
  | blockS (stmts : List Stmt)
end

/-- A parse result (`Code` from ast.h): the top-level statement list. -/
abbrev Code := List Stmt

/-- Digit-accumulation loop shared by the atoi/atof models: consume
leading decimal digits, stop at the first non-digit. -/
def atoi_digits : List Char → Int → Int
  | [], acc => acc
  | c :: rest, acc =>
      if isDigitCh c then atoi_digits rest (acc * 10 + (c.toNat - 48 : Nat)) else acc

/-- Whitespace accepted by C atoi/atof (isspace). -/
def isSpaceCh (c : Char) : Bool :=
  c = ' ' ∨ c = '\t' ∨ c = '\n' ∨ c = '\r' ∨ c.toNat = 11 ∨ c.toNat = 12

/-- C `atoi` semantics as used by parse_expr_primary: skip whitespace,
optional sign, then decimal digits up to the first non-digit character —
so a lexeme such as "1_000" parses as 1 (the underscore stops the
scan).  int32 overflow is undefined behaviour and unmodelled. -/
def atoi (s : String) : Int :=
  match s.data.dropWhile isSpaceCh with
  | '-' :: rest => -(atoi_digits rest 0)
  | '+' :: rest => atoi_digits rest 0
  | cs => atoi_digits cs 0

/-- C `atof` semantics for the decimal forms the lexer can produce
(digits, optional fraction); strtod's exponent/hex/inf forms are not
modelled — no token this lexer emits uses them. -/
def atof (s : String) : ℚ :=
  let cs := s.data.dropWhile isSpaceCh
  let sc : ℚ × List Char :=
    match cs with
    | '-' :: rest => (-1, rest)
    | '+' :: rest => (1, rest)
    | _ => (1, cs)
  let intPart := sc.2.takeWhile isDigitCh
  let rest := sc.2.dropWhile isDigitCh
  let ip : ℚ := (atoi_digits intPart 0 : Int)
  let fp : ℚ :=
    match rest with
    | '.' :: fr =>
        let fdigits := fr.takeWhile isDigitCh
        ((atoi_digits fdigits 0 : Int) : ℚ) / ((10 : ℚ) ^ fdigits.length)
    | _ => 0
  sc.1 * (ip + fp)

/-- The EOF token the stream yields once exhausted (lexer_next keeps
returning EOF at end of input). -/
def eofTok : Token := ⟨.eof, ""⟩

/-- Parser cursor: the current token is the stream head (EOF when
exhausted), matching the parser's current/peek pulls from the lexer. -/
def pCur (ts : List Token) : Token := ts.headD eofTok

/-- parser_advance: drop the current token. -/
def pAdv (ts : List Token) : List Token := ts.tail

/-- parser_match: consume the current token when it has the expected
kind, otherwise leave the stream unchanged. -/
def parser_match (ts : List Token) (k : TokenKind) : List Token :=
  if (pCur ts).kind = k then pAdv ts else ts

/-- parser_expect: same state effect as parser_match; the C version
additionally prints a diagnostic to stderr on mismatch (unmodelled) and
continues. -/
def parser_expect (ts : List Token) (k : TokenKind) : List Token :=
  if (pCur ts).kind = k then pAdv ts else ts

/-- get_infix_prec from parser.c (Precedence numeric values). -/
def get_infix_prec : TokenKind → Nat
  | .asn | .addeq | .subeq | .muleq | .diveq => 1
  | .eq | .neq | .lt | .gt | .le | .ge => 4
  | .add | .sub => 10
  | .star | .div => 11
  | .range | .rangeeq => 10
  | .dot => 17
  | _ => 0

/-- get_postfix_prec from parser.c. -/
def get_postfix_prec : TokenKind → Nat
  | .lparen | .lsquare => 15
  | _ => 0

/-- The mutually recursive expression-parsing routines at one fuel
level (parser.c's Pratt parser), tied with `Nat.rec` below. -/
structure ParseFns where
  expr : List Token → Option (Expr × List Token)
  unary : List Token → Option (Expr × List Token)
  primary : List Token → Option (Expr × List Token)
  arrayElems : List Token → List Expr → Option (List Expr × List Token)
  objectPairs : List Token → List (String × Expr) →
    Option (List (String × Expr) × List Token)
  binary : Expr → Nat → List Token → Option (Expr × List Token)
  postLoop : Expr → Nat → List Token → Option (Expr × List Token)
  callArgs : List Token → List Expr → Option (List Expr × List Token)

/-- parser_parse_expr from parser.c (body, one fuel level). -/
def parse_expr_body (prev : ParseFns) (ts : List Token) :
    Option (Expr × List Token) := do
  let (u, ts1) ← prev.unary ts
  prev.binary u 0 ts1

/-- parse_expr_unary from parser.c: prefix + - ! wrap the operand in a
Unary node (the operator itself is not recorded — C bug kept as is). -/
def parse_expr_unary_body (prev : ParseFns) (ts : List Token) :
    Option (Expr × List Token) :=
  let k := (pCur ts).kind
  if k = .add ∨ k = .sub ∨ k = .not then do
    let (e, ts1) ← prev.unary (pAdv ts)
    some (.unary e, ts1)
  else prev.primary ts

/-- parse_expr_primary from parser.c, in the C checking order.  Literals
parse their token text with atoi/atof; an unrecognized token yields an
EXPR_NIL node without consuming anything. -/
def parse_expr_primary_body (prev : ParseFns) (ts : List Token) :
    Option (Expr × List Token) :=
    let t := pCur ts
    if t.kind = .int then some (.intE (atoi t.text), pAdv ts)
    else if t.kind = .uint then some (.uintE (wrapU32 (atoi t.text)), pAdv ts)
    else if t.kind = .float then some (.doubleE (atof t.text), pAdv ts)
    else if t.kind = .double then some (.doubleE (atof t.text), pAdv ts)
    else if t.kind = .kwTrue then some (.boolE true, pAdv ts)
    else if t.kind = .kwFalse then some (.boolE false, pAdv ts)
    else if t.kind = .kwNil then some (.nilE, pAdv ts)
    else if t.kind = .kwNull then some (.nullE, pAdv ts)
    else if t.kind = .str then some (.strE t.text, pAdv ts)
    else if t.kind = .cstr then some (.cstrE t.text, pAdv ts)
    else if t.kind = .char then some (.charE (t.text.data.headD nulChar), pAdv ts)
    else if t.kind = .ident then some (.identE t.text, pAdv ts)
    else if t.kind = .lparen then do
      let (g, ts1) ← prev.expr (pAdv ts)
      some (g, parser_expect ts1 .rparen)
    else if t.kind = .lsquare then do
      let (elems, ts1) ← prev.arrayElems (pAdv ts) []
      some (.arrayE elems, parser_expect ts1 .rsquare)
    else if t.kind = .lbrace then do
      let (pairs, ts1) ← prev.objectPairs (pAdv ts) []
      some (.objectE pairs, parser_expect ts1 .rbrace)
    else some (.nilE, ts)

/-- The comma-separated element loop of the array literal (shared shape
with the identical inline loop in the postfix `[` handler).  The Nat
argument counts loop iterations (every iteration consumes at least one
token, so any fuel above the stream length is enough). -/
def parse_array_elems_body (prev : ParseFns) :
    Nat → List Token → List Expr → Option (List Expr × List Token)
  | 0, _, _ => none
  | fuel+1, ts, acc =>
    if (pCur ts).kind = .rsquare ∨ (pCur ts).kind = .eof then some (acc, ts)
    else do
      let (e, ts1) ← prev.expr ts
      let acc1 := acc ++ [e]
      if (pCur ts1).kind = .comma then parse_array_elems_body prev fuel (pAdv ts1) acc1
      else some (acc1, ts1)

/-- The key-colon-value loop of the object literal: key is an identifier
or string token (otherwise empty and the pair is dropped). -/
def parse_object_pairs_body (prev : ParseFns) :
    Nat → List Token → List (String × Expr) →
    Option (List (String × Expr) × List Token)
  | 0, _, _ => none
  | fuel+1, ts, acc =>
    if (pCur ts).kind = .rbrace ∨ (pCur ts).kind = .eof then some (acc, ts)
    else do
      let kts : String × List Token :=
        if (pCur ts).kind = .ident ∨ (pCur ts).kind = .str then ((pCur ts).text, pAdv ts)
        else ("", ts)
      let ts1 := parser_expect kts.2 .colon
      let (v, ts2) ← prev.expr ts1
      let acc1 := if kts.1.length > 0 then acc ++ [(kts.1, v)] else acc
      if (pCur ts2).kind = .comma then parse_object_pairs_body prev fuel (pAdv ts2) acc1
      else some (acc1, ts2)

/-- The comma-separated argument loop of parse_expr_call. -/
def parse_call_args_body (prev : ParseFns) :
    Nat → List Token → List Expr → Option (List Expr × List Token)
  | 0, _, _ => none
  | fuel+1, ts, acc =>
    if (pCur ts).kind = .rparen ∨ (pCur ts).kind = .eof then some (acc, ts)
    else do
      let (e, ts1) ← prev.expr ts
      let acc1 := acc ++ [e]
      if (pCur ts1).kind = .comma then parse_call_args_body prev fuel (pAdv ts1) acc1
      else some (acc1, ts1)

/-- The postfix while-loop of parse_expr_binary.  `(` parses a call.  `[`
is the array-literal/index disambiguation: an immediate `]` sets the
array-literal flag but then skips the (inverted) empty-array block, so
the `]` stays unconsumed and `left` unchanged; otherwise one expression
is parsed and a following comma **or closing bracket** makes what was
parsed the first element of a new array literal replacing `left`, while
only any other following token builds an Index node.  The C source also
carries a DOT branch here, but get_postfix_prec returns PREC_NONE for
DOT so the loop always breaks before reaching it (dot access is instead
consumed by the infix loop at PREC_DOT). -/
def parse_post_loop_body (prev : ParseFns) :
    Nat → Expr → Nat → List Token → Option (Expr × List Token)
  | 0, _, _, _ => none
  | fuel+1, left, prec, ts =>
    let pk := (pCur ts).kind
    if get_postfix_prec pk ≤ prec then some (left, ts)
    else if pk = .lparen then do
      let (args, ts1) ← prev.callArgs (pAdv ts) []
      parse_post_loop_body prev fuel (.callE left args) prec (parser_expect ts1 .rparen)
    else if pk = .lsquare then
      let ts0 := pAdv ts
      if (pCur ts0).kind = .rsquare then parse_post_loop_body prev fuel left prec ts0
      else do
        let (first, ts1) ← prev.expr ts0
        if (pCur ts1).kind = .comma ∨ (pCur ts1).kind = .rsquare then do
          let (elems, ts2) ←
            if (pCur ts1).kind = .comma then prev.arrayElems (pAdv ts1) [first]
            else some ([first], ts1)
          parse_post_loop_body prev fuel (.arrayE elems) prec (parser_expect ts2 .rsquare)
        else
          parse_post_loop_body prev fuel (.indexE left first) prec (parser_expect ts1 .rsquare)
    else some (left, ts)

/-- The infix while-loop of parse_expr_binary: consume operators binding
tighter than `prec`, recursing into the right operand only when the
following operator binds strictly tighter; on loop exit fall into the
postfix loop of the same invocation. -/
def parse_expr_binary_body (prev : ParseFns) :
    Nat → Expr → Nat → List Token → Option (Expr × List Token)
  | 0, _, _, _ => none
  | fuel+1, left, prec, ts =>
    let op := (pCur ts).kind
    let nextPrec := get_infix_prec op
    if nextPrec ≤ prec then parse_post_loop_body prev fuel left prec ts
    else do
      let (right, ts1) ← prev.unary (pAdv ts)
      let nextNext := get_infix_prec (pCur ts1).kind
      let (right2, ts2) ←
        if nextPrec < nextNext then prev.binary right nextPrec ts1
        else some (right, ts1)
      parse_expr_binary_body prev fuel (.bina left op right2) prec ts2

/-- All-none parsing routines (fuel exhausted). -/
def parseFnsZero : ParseFns :=
  { expr := fun _ => none, unary := fun _ => none, primary := fun _ => none,
    arrayElems := fun _ _ => none, objectPairs := fun _ _ => none,
    binary := fun _ _ _ => none, postLoop := fun _ _ _ => none,
    callArgs := fun _ _ => none }

/-- The expression-parsing routines at a given fuel level: calls between
routines run at the previous level, and every while-loop spends one unit
of the level index per iteration. -/
def parseFns : Nat → ParseFns :=
  fun n => Nat.rec parseFnsZero
    (fun m prev =>
      { expr := parse_expr_body prev,
        unary := parse_expr_unary_body prev,
        primary := parse_expr_primary_body prev,
        arrayElems := parse_array_elems_body prev m,
        objectPairs := parse_object_pairs_body prev m,
        binary := parse_expr_binary_body prev m,
        postLoop := parse_post_loop_body prev m,
        callArgs := parse_call_args_body prev m }) n

/-- parser_parse_expr from parser.c, fuelled. -/
def parse_expr (fuel : Nat) (ts : List Token) : Option (Expr × List Token) :=
  (parseFns fuel).expr ts

/-- The blank-line skipping prologue of parser_parse_stmt. -/
def skip_newlines : List Token → List Token
  | [] => []
  | t :: rest => if t.kind = .newline then skip_newlines rest else t :: rest

/-- The two mutually recursive statement-parsing routines at one fuel
level, tied with `Nat.rec` below. -/
structure StmtFns where
  stmt : List Token → Option (Option Stmt × List Token)
  blockStmts : List Token → List Stmt → Option (List Stmt × List Token)

/-- parser_parse_stmt from parser.c (body, one fuel level).  Returns
`(none, ts)` only at EOF (the C NULL return).  A consumed var/let/mut
keyword not followed by an identifier falls through to the later checks,
keyword already eaten, exactly as the C control flow does. -/
def parse_stmt_body (pe : ParseFns) (prev : StmtFns) (ts0 : List Token) :
    Option (Option Stmt × List Token) :=
  let ts := skip_newlines ts0
  if (pCur ts).kind = .eof then some (none, ts)
  else
    let vk := (pCur ts).kind
    let isVar := vk = .kwVar ∨ vk = .kwLet ∨ vk = .kwMut
    let ts := if isVar then pAdv ts else ts
    if isVar ∧ (pCur ts).kind = .ident then do
      let name := (pCur ts).text
      let ts1 := parser_expect (pAdv ts) .asn
      let (init, ts2) ← pe.expr ts1
      let ts3 := parser_match (parser_match ts2 .newline) .semi
      some (some (.storeS name init), ts3)
    else if (pCur ts).kind = .kwIf then do
      let (cond, ts1) ← pe.expr (pAdv ts)
      let (thenB, ts2) ← prev.stmt ts1
      let (elseB, ts3) ←
        if (pCur ts2).kind = .kwElse then prev.stmt (pAdv ts2)
        else some (none, ts2)
      some (some (.ifS cond thenB elseB), ts3)
    else if (pCur ts).kind = .kwFor then
      let ts1 := pAdv ts
      let vn : String × List Token :=
        if (pCur ts1).kind = .ident then ((pCur ts1).text, pAdv ts1) else ("", ts1)
      let ts2 := parser_expect vn.2 .kwIn
      do
        let (iter, ts3) ← pe.expr ts2
        let (body, ts4) ← prev.stmt ts3
        some (some (.forS vn.1 iter body), ts4)
    else if (pCur ts).kind = .lbrace then do
      let (stmts, ts1) ← prev.blockStmts (pAdv ts) []
      some (some (.blockS stmts), parser_expect ts1 .rbrace)
    else do
      let (e, ts1) ← pe.expr ts
      let ts2 := parser_match (parser_match ts1 .newline) .semi
      some (some (.exprS e), ts2)

/-- The statement loop of the `{` block branch of parser_parse_stmt. -/
def parse_block_stmts_body (prev : StmtFns) :
    Nat → List Token → List Stmt → Option (List Stmt × List Token)
  | 0, _, _ => none
  | fuel+1, ts, acc =>
    if (pCur ts).kind = .rbrace ∨ (pCur ts).kind = .eof then some (acc, ts)
    else do
      let (os, ts1) ← prev.stmt ts
      parse_block_stmts_body prev fuel ts1
        (match os with | some s => acc ++ [s] | none => acc)

/-- All-none statement-parsing routines (fuel exhausted). -/
def stmtFnsZero : StmtFns :=
  { stmt := fun _ => none, blockStmts := fun _ _ => none }

/-- The statement-parsing routines at a given fuel level; expressions
are parsed with the expression routines of the same level index. -/
def stmtFns : Nat → StmtFns :=
  fun n => Nat.rec stmtFnsZero
    (fun m prev =>
      { stmt := parse_stmt_body (parseFns m) prev,
        blockStmts := parse_block_stmts_body prev m }) n

/-- parser_parse_stmt from parser.c, fuelled. -/
def parse_stmt (fuel : Nat) (ts : List Token) :
    Option (Option Stmt × List Token) :=
  (stmtFns fuel).stmt ts

/-- parser_parse from parser.c: statements until EOF. -/
def parser_parse : Nat → List Token → List Stmt → Option Code
  | 0, _, _ => none
  | fuel+1, ts, acc =>
    if (pCur ts).kind = .eof then some acc
    else do
      let (os, ts1) ← parse_stmt fuel ts
      parser_parse fuel ts1 (match os with | some s => acc ++ [s] | none => acc)

/-- Lex and parse a whole source string (the front half of autoc_run). -/
def parse_program (s : String) : Option Code := do
  let toks ← lex_program s
  parser_parse (s.length + 16) toks []

/-! ## Universe, the scope manager (universe.h / universe.c) -/

/-- ScopeKind from universe.h. -/
inductive ScopeKind where
  | global | mod | ty | fn | block
deriving DecidableEq, Repr

/-- Scope from universe.h: its id path string (Sid), the parent id (none
only for the global scope), and the ordered name→value binding list.
The `kids` list is recorded by the C code but never read back (except
for deallocation), so it is not modelled. -/
structure Scope where
  kind : ScopeKind
  sid : String
  parent : Option String
  binds : List (String × Value)

/-- Universe from universe.h: the append-only registry of all scopes
ever created, the current scope (identified by its sid — the C current
pointer always refers to the registry entry with that path, and paths
are unique by construction), and the scope-name counter (the C static
`block_counter` in universe_enter_scope). -/
structure Universe where
  scopes : List Scope
  currentSid : String
  counter : Nat

/-- universe_new: the registry holding just the global scope (empty
path, no parent), which is also current. -/
def universe_new : Universe :=
  { scopes := [⟨.global, "", none, []⟩], currentSid := "", counter := 0 }

/-- Registry lookup by id path: the first scope whose sid equals the
given path (the linear scans in universe.c). -/
def findScope (scopes : List Scope) (sid : String) : Option Scope :=
  scopes.find? (fun sc => sc.sid == sid)

/-- Replace (in place) the first registry entry with the given sid,
modelling mutation through the C scope pointer. -/
def updateScope (scopes : List Scope) (sid : String) (f : Scope → Scope) :
    List Scope :=
  match scopes with
  | [] => []
  | sc :: rest =>
      if sc.sid == sid then f sc :: rest else sc :: updateScope rest sid f

/-- scope_get from universe.c: first binding with the given name. -/
def bindsGet (binds : List (String × Value)) (name : String) : Option Value :=
  (binds.find? (fun p => p.1 == name)).map (·.2)

/-- The in-place overwrite of the first binding with the given name (the
found branch of universe_set and of scope_set). -/
def bindsReplace (binds : List (String × Value)) (name : String) (v : Value) :
    List (String × Value) :=
  match binds with
  | [] => []
  | (k, w) :: rest =>
      if k == name then (k, v) :: rest else (k, w) :: bindsReplace rest name v

/-- scope_set from universe.c: overwrite an existing binding in place,
else append a new one. -/
def scope_set (binds : List (String × Value)) (name : String) (v : Value) :
    List (String × Value) :=
  if binds.any (fun p => p.1 == name) then bindsReplace binds name v
  else binds ++ [(name, v)]

/-- universe_enter_scope from universe.c: synthesize `block_N`/`scope_N`
from the counter, dot-concatenate onto the current path (or use it bare
under the global empty path), register the new scope with the old
current path as parent, and make it current. -/
def universe_enter_scope (u : Universe) (kind : ScopeKind) : Universe :=
  let nm := (match kind with
    | .block => "block_"
    | _ => "scope_") ++ toString u.counter
  let sid := if u.currentSid = "" then nm else u.currentSid ++ "." ++ nm
  { scopes := u.scopes ++ [⟨kind, sid, some u.currentSid, []⟩],
    currentSid := sid,
    counter := u.counter + 1 }

/-- universe_exit_scope from universe.c: reposition current to the first
registry scope whose sid equals the current scope's parent path; when
the current scope has no parent, or the parent path resolves to no
registered scope, current is left unchanged. -/
def universe_exit_scope (u : Universe) : Universe :=
  match findScope u.scopes u.currentSid with
  | none => u
  | some sc =>
    match sc.parent with
    | none => u
    | some p =>
      match findScope u.scopes p with
      | some psc => { u with currentSid := psc.sid }
      | none => u

/-- The parent-chain walk of universe_get: check each scope's bindings,
then resolve the parent path through the registry.  `none` models the
divergence the C code exhibits when a chain link does not resolve (its
scan then rechecks the same scope forever) or when fuel runs out;
`some none` is a completed walk that found no binding. -/
def universe_get_loop (u : Universe) (name : String) :
    Nat → String → Option (Option Value)
  | 0, _ => none
  | n+1, sid =>
    match findScope u.scopes sid with
    | none => none
    | some sc =>
      match bindsGet sc.binds name with
      | some v => some (some v)
      | none =>
        match sc.parent with
        | none => some none
        | some p =>
          match findScope u.scopes p with
          | some _ => universe_get_loop u name n p
          | none => none

/-- universe_get / universe_lookup from universe.c, fuelled by the
registry size (a well-formed chain never revisits a scope). -/
def universe_get (u : Universe) (name : String) : Option (Option Value) :=
  universe_get_loop u name (u.scopes.length + 1) u.currentSid

/-- The parent-chain walk of universe_set: overwrite the binding in the
first (nearest) chain scope that has the name; if the chain ends without
a hit, scope_set into the **current** scope.  As in universe_get_loop,
`none` models divergence on a broken chain link or fuel exhaustion. -/
def universe_set_loop (u : Universe) (name : String) (v : Value) :
    Nat → String → Option Universe
  | 0, _ => none
  | n+1, sid =>
    match findScope u.scopes sid with
    | none => none
    | some sc =>
      if sc.binds.any (fun p => p.1 == name) then
        some { u with
          scopes := updateScope u.scopes sid
            (fun s => { s with binds := bindsReplace s.binds name v }) }
      else
        match sc.parent with
        | none =>
          some { u with
            scopes := updateScope u.scopes u.currentSid
              (fun s => { s with binds := scope_set s.binds name v }) }
        | some p =>
          match findScope u.scopes p with
          | some _ => universe_set_loop u name v n p
          | none => none

/-- universe_set from universe.c. -/
def universe_set (u : Universe) (name : String) (v : Value) : Option Universe :=
  universe_set_loop u name v (u.scopes.length + 1) u.currentSid

/-! ## Evaluator (eval.h / eval.c) -/

/-- Evaluator state: the universe plus accumulated stdout text (the
print built-in's output).  The Evaler mode/skip_check flags are carried
by the C struct but never read during evaluation, so they are not
modelled. -/
structure EvalSt where
  univ : Universe
  out : String

/-- The post-evaluation dispatch of the EXPR_CALL case in eval.c: the
one built-in fires when the **evaluated callee value** is a Str whose
contents are "print" (`callee->kind == VAL_STR && strcmp(data,
"print") == 0`); it prints each argument's repr, space-separated, with a
trailing newline, and yields Void; every other callee value yields Nil
with no output.  (The C argument-collection loop before this dispatch
has a broken realloc guard — writing through a NULL args pointer
whenever the AST node's capacity exceeds the argument count — which is a
memory fault outside this embedding; the dispatch logic itself is
modelled as written.) -/
def eval_call_dispatch (callee : Value) (args : List Value) : Value × String :=
  match callee with
  | .str s =>
      if s = "print" then
        (.void, String.intercalate " " (args.map value_repr) ++ "\n")
      else (.nil, "")
  | _ => (.nil, "")

/-- The A rray/Int bounds logic of the EXPR_INDEX case in eval.c: an
Array base with an Int index clones the element when `0 <= idx < len`
and errors otherwise; any other base/index kind pair falls through to
the initial `value_nil()` result. -/
def eval_index (base idx : Value) : Value :=
  match base, idx with
  | .array es, .int i =>
      if 0 ≤ i ∧ i < (es.length : Int) then
        value_clone (es.getD i.toNat .nil)
      else .error "index out of bounds"
  | _, _ => .nil

/-- The two mutually recursive evaluation routines (expression and
statement) at one fuel level, tied with `Nat.rec` below; the list
traversals are structural helpers parameterized by the previous level.
`none` is fuel exhaustion or a diverging universe walk (never reached on
the concrete programs evaluated below). -/
structure EvalFns where
  expr : EvalSt → Expr → Option (Value × EvalSt)
  stmt : EvalSt → Stmt → Option (Value × EvalSt)

/-- Left-to-right evaluation of an expression list (array elements and
call arguments in eval.c). -/
def eval_expr_list (prev : EvalFns) : EvalSt → List Expr → Option (List Value × EvalSt)
  | st, [] => some ([], st)
  | st, e :: rest => do
    let (v, st1) ← prev.expr st e
    let (vs, st2) ← eval_expr_list prev st1 rest
    some (v :: vs, st2)

/-- Left-to-right evaluation of object literal pairs (keys are taken
from the AST unchanged, as in the C loop). -/
def eval_object_pairs (prev : EvalFns) : EvalSt → List (String × Expr) →
    Option (List (String × Value) × EvalSt)
  | st, [] => some ([], st)
  | st, (k, e) :: rest => do
    let (v, st1) ← prev.expr st e
    let (kvs, st2) ← eval_object_pairs prev st1 rest
    some ((k, v) :: kvs, st2)

/-- Statement sequence evaluation keeping only the last result (the
Block loops in eval.c; `last` is the initial result - value_nil for
expression blocks, value_void for statement blocks and programs). -/
def eval_stmt_seq (prev : EvalFns) : EvalSt → Value → List Stmt → Option (Value × EvalSt)
  | st, last, [] => some (last, st)
  | st, _, s :: rest => do
    let (v, st1) ← prev.stmt st s
    eval_stmt_seq prev st1 v rest

/-- NULL-tolerant statement evaluation (the C evaluator returns Void for
a NULL statement pointer). -/
def eval_opt_stmt (prev : EvalFns) (st : EvalSt) : Option Stmt → Option (Value × EvalSt)
  | none => some (.void, st)
  | some s => prev.stmt st s

/-- The STMT_STORE body: evaluate the initializer, bind it via
universe_set, return a clone of the bound value. -/
def eval_stmt_store (prev : EvalFns) (st : EvalSt) (name : String) (init : Expr) :
    Option (Value × EvalSt) := do
  let (v, st1) ← prev.expr st init
  match universe_set st1.univ name v with
  | none => none
  | some u1 => some (value_clone v, { st1 with univ := u1 })

/-- The Range arm of the STMT_FOR loop: iterate `i` from start while
`i ≤ end` (inclusive flag) or `i < end`, rebinding the loop variable
via universe_set each iteration and keeping the last body result.  The
Nat argument counts loop iterations. -/
def eval_for_range (prev : EvalFns) : Nat → EvalSt → String → Option Stmt →
    Int → Int → Bool → Value → Option (Value × EvalSt)
  | 0, _, _, _, _, _, _, _ => none
  | fuel+1, st, varName, body, i, stop, eqf, result =>
    if (if eqf then i ≤ stop else i < stop) then do
      match universe_set st.univ varName (.int i) with
      | none => none
      | some u1 => do
        let (r, st1) ← eval_opt_stmt prev { st with univ := u1 } body
        eval_for_range prev fuel st1 varName body (i + 1) stop eqf r
    else some (result, st)

/-- The Array arm of the STMT_FOR loop: rebind the loop variable to a
clone of each element in order. -/
def eval_for_array (prev : EvalFns) : EvalSt → String → Option Stmt →
    List Value → Value → Option (Value × EvalSt)
  | st, _, _, [], result => some (result, st)
  | st, varName, body, v :: rest, _ => do
    match universe_set st.univ varName (value_clone v) with
    | none => none
    | some u1 => do
      let (r, st1) ← eval_opt_stmt prev { st with univ := u1 } body
      eval_for_array prev st1 varName body rest r

/-- evaler_eval_expr from eval.c (body, one fuel level). -/
def eval_expr_body (prev : EvalFns) (st : EvalSt) (e : Expr) :
    Option (Value × EvalSt) :=
  match e with
  | .byteE b => some (.byte b, st)
  | .intE i => some (.int i, st)
  | .uintE u => some (.uint u, st)
  | .i8E i => some (.int i, st)
  | .u8E u => some (.uint u, st)
  | .i64E i => some (.int i, st)
  | .floatE q => some (.double q, st)
  | .doubleE q => some (.double q, st)
  | .boolE b => some (.bool b, st)
  | .charE c => some (.char c, st)
  | .strE s => some (.str s, st)
  | .cstrE s => some (.str s, st)
  | .nilE => some (.nil, st)
  | .nullE => some (.error "null", st)
  | .identE name =>
    match universe_get st.univ name with
    | none => none
    | some (some v) => some (value_clone v, st)
    | some none => some (.nil, st)
  | .unary operand => do
    let (v, st1) ← prev.expr st operand
    some (value_neg v, st1)
  | .bina l op r => do
    let (lv, st1) ← prev.expr st l
    let (rv, st2) ← prev.expr st1 r
    match op with
    | .add => some (value_add lv rv, st2)
    | .sub => some (value_sub lv rv, st2)
    | .star => some (value_mul lv rv, st2)
    | .div => some (value_div lv rv, st2)
    | .eq => some (value_eq lv rv, st2)
    | .neq => some (value_neq lv rv, st2)
    | .lt => some (value_lt lv rv, st2)
    | .gt => some (value_gt lv rv, st2)
    | .le => some (value_le lv rv, st2)
    | .ge => some (value_ge lv rv, st2)
    | .range =>
      match lv, rv with
      | .int a, .int b => some (.range a b false, st2)
      | _, _ => some (.error "type error in range", st2)
    | .rangeeq =>
      match lv, rv with
      | .int a, .int b => some (.range a b true, st2)
      | _, _ => some (.error "type error in range", st2)
    | .asn =>
      match l with
      | .identE name =>
        match universe_set st2.univ name (value_clone rv) with
        | none => none
        | some u1 => some (value_clone rv, { st2 with univ := u1 })
      | _ => some (.error "invalid assignment target", st2)
    | _ => some (.nil, st2)
  | .arrayE elems => do
    let (vs, st1) ← eval_expr_list prev st elems
    some (.array vs, st1)
  | .objectE pairs => do
    let (kvs, st1) ← eval_object_pairs prev st pairs
    some (.object kvs, st1)
  | .callE callee args => do
    let (cv, st1) ← prev.expr st callee
    let (avs, st2) ← eval_expr_list prev st1 args
    let rp := eval_call_dispatch cv avs
    some (rp.1, { st2 with out := st2.out ++ rp.2 })
  | .indexE base idx => do
    let (bv, st1) ← prev.expr st base
    let (iv, st2) ← prev.expr st1 idx
    some (eval_index bv iv, st2)
  | .blockE stmts => eval_stmt_seq prev st .nil stmts
  | .ifE cond thenB elseB => do
    let (cv, st1) ← prev.expr st cond
    if value_is_true cv then prev.expr st1 thenB
    else
      match elseB with
      | some eb => prev.expr st1 eb
      | none => some (.void, st1)

/-- evaler_eval_stmt from eval.c (body, one fuel level); the Nat
argument bounds the iterations of a range for-loop. -/
def eval_stmt_body (prev : EvalFns) (m : Nat) (st : EvalSt) (s : Stmt) :
    Option (Value × EvalSt) :=
  match s with
  | .exprS e => prev.expr st e
  | .storeS name init => eval_stmt_store prev st name init
  | .blockS stmts => do
    let st1 := { st with univ := universe_enter_scope st.univ .block }
    let (v, st2) ← eval_stmt_seq prev st1 .void stmts
    some (v, { st2 with univ := universe_exit_scope st2.univ })
  | .ifS cond thenB elseB => do
    let (cv, st1) ← prev.expr st cond
    if value_is_true cv then eval_opt_stmt prev st1 thenB
    else
      match elseB with
      | some eb => eval_opt_stmt prev st1 (some eb)
      | none => some (.void, st1)
  | .forS varName iter body => do
    let (iv, st1) ← prev.expr st iter
    let st2 := { st1 with univ := universe_enter_scope st1.univ .block }
    let (v, st3) ←
      match iv with
      | .range a b e => eval_for_range prev m st2 varName body a b e .void
      | .array es => eval_for_array prev st2 varName body es .void
      | _ => some ((.void : Value), st2)
    some (v, { st3 with univ := universe_exit_scope st3.univ })

/-- All-none evaluation routines (fuel exhausted). -/
def evalFnsZero : EvalFns :=
  { expr := fun _ _ => none, stmt := fun _ _ => none }

/-- The evaluation routines at a given fuel level: sub-evaluations run
at the previous level, and a range for-loop spends one unit of the level
index per iteration. -/
def evalFns : Nat → EvalFns :=
  fun n => Nat.rec evalFnsZero
    (fun m prev =>
      { expr := eval_expr_body prev,
        stmt := eval_stmt_body prev m }) n

/-- evaler_eval_expr from eval.c, fuelled. -/
def eval_expr (fuel : Nat) (st : EvalSt) (e : Expr) : Option (Value × EvalSt) :=
  (evalFns fuel).expr st e

/-- evaler_eval_stmt from eval.c, fuelled. -/
def eval_stmt (fuel : Nat) (st : EvalSt) (s : Stmt) : Option (Value × EvalSt) :=
  (evalFns fuel).stmt st s

/-- The initial evaluator state of autoc_run: a fresh universe, no
output. -/
def initialEvalSt : EvalSt := { univ := universe_new, out := "" }

/-- evaler_eval from eval.c: fold statements with a Void initial
result. -/
def evaler_eval (fuel : Nat) (st : EvalSt) (code : Code) :
    Option (Value × EvalSt) :=
  eval_stmt_seq (evalFns fuel) st .void code

/-- Lex, parse and evaluate a source string, returning the evaluator's
result value (autoc_run before its final result-saving value_clone). -/
def eval_program (s : String) : Option Value := do
  let code ← parse_program s
  let (v, _) ← evaler_eval (s.length + 32) initialEvalSt code
  some v

/-- Same as eval_program but also returning the accumulated stdout
text. -/
def eval_program_out (s : String) : Option (Value × String) := do
  let code ← parse_program s
  let (v, st) ← evaler_eval (s.length + 32) initialEvalSt code
  some (v, st.out)

/-! ## Staging lemma for concrete program runs

Evaluating `eval_program` on a source literal in one definitional step
re-reduces the unevaluated parser output at every AST inspection; the
lemma below lets a concrete run be certified in three independent
stages (lex, parse, evaluate), each a plain `rfl`. -/

/-- Compose staged lexing/parsing/evaluation results into an
`eval_program` result. -/
theorem run_program_eq (s : String) (toks : List Token) (code : Code)
    (v : Value)
    (hl : lex_program s = some toks)
    (hp : parser_parse (s.length + 16) toks [] = some code)
    (he : (evaler_eval (s.length + 32) initialEvalSt code).map Prod.fst
      = some v) :
    eval_program s = some v := by
  unfold eval_program parse_program
  rw [hl]
  cases h : evaler_eval (s.length + 32) initialEvalSt code with
  | none => rw [h] at he; simp at he
  | some r =>
    rw [h] at he
    simp only [Option.map_some'] at he
    simp [hp, h, ← he]

/-! ## Concrete token streams and ASTs for the claim programs

Stage witnesses for the staged runs: each is the literal value the
previous pipeline stage produces (certified by `rfl` in the claim
proofs). -/

/-- Source of the exclusive-range sum program (spec §8). -/
def c6aSrc : String := "var sum=0; for i in 0..10 \x7bsum=sum+i\x7d; sum"

/-- Source of the inclusive-range sum program (spec §8). -/
def c6bSrc : String := "var sum=0; for i in 0..=10 \x7bsum=sum+i\x7d; sum"

/-- Token stream of `c6aSrc`. -/
def c6aToks : List Token :=
  [⟨.kwVar, "var"⟩, ⟨.ident, "sum"⟩, ⟨.asn, "="⟩, ⟨.int, "0"⟩, ⟨.semi, ";"⟩,
   ⟨.kwFor, "for"⟩, ⟨.ident, "i"⟩, ⟨.kwIn, "in"⟩, ⟨.int, "0"⟩,
   ⟨.range, ".."⟩, ⟨.int, "10"⟩, ⟨.lbrace, "\x7b"⟩, ⟨.ident, "sum"⟩,
   ⟨.asn, "="⟩, ⟨.ident, "sum"⟩, ⟨.add, "+"⟩, ⟨.ident, "i"⟩,
   ⟨.rbrace, "\x7d"⟩, ⟨.semi, ";"⟩, ⟨.ident, "sum"⟩]

/-- Token stream of `c6bSrc` (the range token is `..=`). -/
def c6bToks : List Token :=
  [⟨.kwVar, "var"⟩, ⟨.ident, "sum"⟩, ⟨.asn, "="⟩, ⟨.int, "0"⟩, ⟨.semi, ";"⟩,
   ⟨.kwFor, "for"⟩, ⟨.ident, "i"⟩, ⟨.kwIn, "in"⟩, ⟨.int, "0"⟩,
   ⟨.rangeeq, "..="⟩, ⟨.int, "10"⟩, ⟨.lbrace, "\x7b"⟩, ⟨.ident, "sum"⟩,
   ⟨.asn, "="⟩, ⟨.ident, "sum"⟩, ⟨.add, "+"⟩, ⟨.ident, "i"⟩,
   ⟨.rbrace, "\x7d"⟩, ⟨.semi, ";"⟩, ⟨.ident, "sum"⟩]

/-- AST of `c6aSrc`: the store, the for-loop over `0..10`, the spurious
EXPR_NIL statement the tolerant parser makes of the trailing `;`, and
the final read of `sum`. -/
def c6aCode : Code :=
  [.storeS "sum" (.intE 0),
   .forS "i" (.bina (.intE 0) .range (.intE 10))
     (some (.blockS [.exprS (.bina (.identE "sum") .asn
        (.bina (.identE "sum") .add (.identE "i")))])),
   .exprS .nilE,
   .exprS (.identE "sum")]

/-- AST of `c6bSrc` (inclusive range). -/
def c6bCode : Code :=
  [.storeS "sum" (.intE 0),
   .forS "i" (.bina (.intE 0) .rangeeq (.intE 10))
     (some (.blockS [.exprS (.bina (.identE "sum") .asn
        (.bina (.identE "sum") .add (.identE "i")))])),
   .exprS .nilE,
   .exprS (.identE "sum")]

/-- Source of the array indexing program (spec §8). -/
def c9Src : String := "var a=[1,2,3]; a[0]"

/-- Token stream of `c9Src`. -/
def c9Toks : List Token :=
  [⟨.kwVar, "var"⟩, ⟨.ident, "a"⟩, ⟨.asn, "="⟩, ⟨.lsquare, "["⟩,
   ⟨.int, "1"⟩, ⟨.comma, ","⟩, ⟨.int, "2"⟩, ⟨.comma, ","⟩, ⟨.int, "3"⟩,
   ⟨.rsquare, "]"⟩, ⟨.semi, ";"⟩, ⟨.ident, "a"⟩, ⟨.lsquare, "["⟩,
   ⟨.int, "0"⟩, ⟨.rsquare, "]"⟩]

/-- AST of `c9Src`: the postfix `[` disambiguation turns `a[0]` into the
array literal `[0]`, discarding `a` — no Index node is built. -/
def c9Code : Code :=
  [.storeS "a" (.arrayE [.intE 1, .intE 2, .intE 3]),
   .exprS (.arrayE [.intE 0])]

/-- Source of the scope-mutation program (spec §8): assign inside a
nested block to a name bound at top level. -/
def c5Src : String := "var a=1; \x7ba=2\x7d; a"

/-- Token stream of `c5Src`. -/
def c5Toks : List Token :=
  [⟨.kwVar, "var"⟩, ⟨.ident, "a"⟩, ⟨.asn, "="⟩, ⟨.int, "1"⟩, ⟨.semi, ";"⟩,
   ⟨.lbrace, "\x7b"⟩, ⟨.ident, "a"⟩, ⟨.asn, "="⟩, ⟨.int, "2"⟩,
   ⟨.rbrace, "\x7d"⟩, ⟨.semi, ";"⟩, ⟨.ident, "a"⟩]

/-- AST of `c5Src`. -/
def c5Code : Code :=
  [.storeS "a" (.intE 1),
   .blockS [.exprS (.bina (.identE "a") .asn (.intE 2))],
   .exprS .nilE,
   .exprS (.identE "a")]

/-- Token stream of `"1/0"`. -/
def c7Toks : List Token := [⟨.int, "1"⟩, ⟨.div, "/"⟩, ⟨.int, "0"⟩]

/-- AST of `"1/0"`. -/
def c7Code : Code := [.exprS (.bina (.intE 1) .div (.intE 0))]

/-- Token stream of `"1_000"`: one INT token whose lexeme keeps the
underscore. -/
def c4Toks : List Token := [⟨.int, "1_000"⟩]

/-- AST of `"1_000"`: atoi stops at the underscore, so the Int literal
node carries 1. -/
def c4Code : Code := [.exprS (.intE 1)]

/-! ## The claims -/

/-- C1: the claim says value_clone deep-copies every tag including
Object.  In the code the clone switch has no VAL_OBJECT arm, so an
Object value — on its own or inside an Array — clones to Nil, not to a
recursively cloned Object. -/
theorem claim_c1 :
    value_clone (.object [("a", .int 1)]) = .nil ∧
    value_clone (.array [.int 1, .object [("k", .int 2)]])
      = .array [.int 1, .nil] ∧
    Value.nil ≠ Value.object [("a", .int 1)] :=
  ⟨rfl, rfl, by simp⟩

/-- C4: the claim says "1_000" yields Int(1000).  The lexer does skip
underscores while scanning (one INT token with lexeme "1_000"), but the
parser applies atoi to that lexeme, which stops at the underscore: the
resulting literal expression is Int(1), and the program evaluates to
Int(1). -/
theorem claim_c4 :
    atoi "1_000" = 1 ∧
    lex_program "1_000" = some c4Toks ∧
    parser_parse ("1_000".length + 16) c4Toks [] = some c4Code ∧
    eval_program "1_000" = some (.int 1) :=
  ⟨rfl, rfl, rfl, run_program_eq _ c4Toks c4Code _ rfl rfl rfl⟩

/-- C6: the range-sum programs of the spec: `for i in 0..10` sums to 45
(exclusive end) and `for i in 0..=10` sums to 55 (inclusive end); the
For statement iterates the Int range under the inclusivity flag,
rebinding the loop variable each iteration. -/
theorem claim_c6 :
    eval_program c6aSrc = some (.int 45) ∧
    eval_program c6bSrc = some (.int 55) :=
  ⟨run_program_eq _ c6aToks c6aCode _ rfl rfl rfl,
   run_program_eq _ c6bToks c6bCode _ rfl rfl rfl⟩

/-- C7: every numeric pairing of value_div checks its divisor for zero
and returns the Error value "division by zero" instead of trapping, and
the full pipeline on "1/0" produces that Error value. -/
theorem claim_c7 :
    (∀ a : Int, value_div (.int a) (.int 0) = .error "division by zero") ∧
    (∀ a : Nat, value_div (.uint a) (.uint 0) = .error "division by zero") ∧
    (∀ a : ℚ, value_div (.double a) (.double 0) = .error "division by zero") ∧
    (∀ a : Int, value_div (.int a) (.double 0) = .error "division by zero") ∧
    (∀ a : ℚ, value_div (.double a) (.int 0) = .error "division by zero") ∧
    eval_program "1/0" = some (.error "division by zero") :=
  ⟨fun _ => by simp [value_div], fun _ => by simp [value_div],
   fun _ => by simp [value_div], fun _ => by simp [value_div],
   fun _ => by simp [value_div],
   run_program_eq _ c7Toks c7Code _ rfl rfl rfl⟩

/-- Exact same-kind numeric pairing (the only shapes the ordering
comparisons accept). -/
def same_kind_numeric (a b : Value) : Bool :=
  match a, b with
  | .int _, .int _ => true
  | .uint _, .uint _ => true
  | .double _, .double _ => true
  | _, _ => false

/-- C8: value_eq returns a Bool for the Int/Double mix (compared as
doubles), for same-kind Bool/Int/UInt/Double/Str pairs, and for
Nil/Nil (unconditionally true); every ordering comparison on any pair
that is not exactly same-kind numeric — including the Int/Double mix eq
accepts — returns a type-error Error value. -/
theorem claim_c8 :
    (∀ (i : Int) (q : ℚ),
      value_eq (.int i) (.double q) = .bool (decide ((i : ℚ) = q)) ∧
      value_eq (.double q) (.int i) = .bool (decide (q = (i : ℚ)))) ∧
    (∀ x y : Bool, ∃ b, value_eq (.bool x) (.bool y) = .bool b) ∧
    (∀ x y : Int, ∃ b, value_eq (.int x) (.int y) = .bool b) ∧
    (∀ x y : Nat, ∃ b, value_eq (.uint x) (.uint y) = .bool b) ∧
    (∀ x y : ℚ, ∃ b, value_eq (.double x) (.double y) = .bool b) ∧
    (∀ x y : String, ∃ b, value_eq (.str x) (.str y) = .bool b) ∧
    value_eq .nil .nil = .bool true ∧
    (∀ a b : Value, same_kind_numeric a b = false →
      value_lt a b = .error "type error in <" ∧
      value_gt a b = .error "type error in >" ∧
      value_le a b = .error "type error in <=" ∧
      value_ge a b = .error "type error in >=") :=
  ⟨fun i q => ⟨by simp [value_eq, valueKind], by simp [value_eq, valueKind]⟩,
   fun x y => ⟨x == y, by simp [value_eq, valueKind]⟩,
   fun x y => ⟨x == y, by simp [value_eq, valueKind]⟩,
   fun x y => ⟨x == y, by simp [value_eq, valueKind]⟩,
   fun x y => ⟨decide (x = y), by simp [value_eq, valueKind]⟩,
   fun x y => ⟨x == y, by simp [value_eq, valueKind]⟩,
   rfl,
   by
    intro a b h
    cases a <;> cases b <;>
      simp_all [same_kind_numeric, value_lt, value_gt, value_le, value_ge]⟩

/-- C8 witness: the Int/Double mix, which value_eq accepts, makes every
ordering comparison error. -/
theorem claim_c8_witness :
    same_kind_numeric (.int 1) (.double 2) = false ∧
    value_lt (.int 1) (.double 2) = .error "type error in <" ∧
    value_ge (.int 1) (.double 2) = .error "type error in >=" :=
  ⟨rfl, (claim_c8.2.2.2.2.2.2.2 (.int 1) (.double 2) rfl).1,
   (claim_c8.2.2.2.2.2.2.2 (.int 1) (.double 2) rfl).2.2.2⟩

/-- C9: the claim says `var a=[1,2,3]; a[0]` evaluates to Int(1).  The
parser's postfix `[` disambiguation instead turns `a[0]` into the array
literal `[0]` (a `]` right after the first parsed element selects the
array-literal branch, discarding `a`), so the program parses without any
Index node and evaluates to the Array value [0]. -/
theorem claim_c9 :
    lex_program c9Src = some c9Toks ∧
    parser_parse (c9Src.length + 16) c9Toks [] = some c9Code ∧
    eval_program c9Src = some (.array [.int 0]) :=
  ⟨rfl, rfl, run_program_eq _ c9Toks c9Code _ rfl rfl rfl⟩

/-- C10: when an Index expression's base value is not an Array or its
index value is not an Int, the evaluator's EXPR_INDEX case leaves its
initial value_nil result untouched: the silent result is Nil, not an
Error value. -/
theorem claim_c10 :
    ∀ a i : Value, ¬(valueKind a = .array ∧ valueKind i = .int) →
      eval_index a i = .nil := by
  intro a i h
  cases a <;> cases i <;> simp_all [eval_index, valueKind]

/-- C10 witness: indexing an Int base with an Int index yields Nil. -/
theorem claim_c10_witness :
    ¬(valueKind (.int 1) = .array ∧ valueKind (.int 0) = .int) ∧
    eval_index (.int 1) (.int 0) = .nil :=
  ⟨by simp [valueKind], claim_c10 (.int 1) (.int 0) (by simp [valueKind])⟩

/-- C2 counterexample: a Call whose callee is the identifier `print` (in
the initial universe, where no binding for "print" exists) evaluates to
Nil with no output — not to Void — because the built-in fires only when
the callee **value** is the string "print", and an unbound identifier
evaluates to Nil. -/
theorem claim_c2_counterexample :
    eval_expr 8 initialEvalSt (.callE (.identE "print") [])
      = some (.nil, initialEvalSt) ∧
    Value.nil ≠ Value.void :=
  ⟨rfl, by simp⟩

/-- C2 (amended): a Call evaluates callee and arguments eagerly; the
print built-in fires exactly when the evaluated callee is a Str value
equal to "print", rendering the arguments' reprs space-joined with a
trailing newline and returning Void; any other callee value yields Nil
with no output — in particular the unbound identifier `print` evaluates
to Nil, so calling it yields Nil. -/
theorem claim_c2 :
    (∀ args : List Value, eval_call_dispatch (.str "print") args
      = (.void, String.intercalate " " (args.map value_repr) ++ "\n")) ∧
    (∀ (callee : Value) (args : List Value),
      (∀ s, callee = .str s → s ≠ "print") →
      eval_call_dispatch callee args = (.nil, "")) ∧
    eval_expr 8 initialEvalSt (.callE (.identE "print") [])
      = some (.nil, initialEvalSt) :=
  ⟨fun args => by simp [eval_call_dispatch],
   fun callee args h => by
    cases callee <;> simp [eval_call_dispatch]
    intro hs
    exact absurd hs (h _ rfl),
   rfl⟩

/-- C2 witness: a non-print callee value yields Nil with no output, and
the string-"print" callee renders "1 2" with the trailing newline and
returns Void. -/
theorem claim_c2_witness :
    eval_call_dispatch (.int 3) [.int 1] = (.nil, "") ∧
    eval_call_dispatch (.str "print") [.int 1, .int 2] = (.void, "1 2\n") :=
  ⟨claim_c2.2.1 (.int 3) [.int 1] (fun s h => by cases h),
   (claim_c2.1 [.int 1, .int 2]).trans (by rfl)⟩

/-! ## C3: the format-string lexing of `f"hello ${2}"` -/

/-- The format-string source of the claim. -/
def c3Src : String := "f\"hello ${2}\""

/-- Lexer state after the first token: the lexer consumed the `f` as an
identifier (pos 1, empty buffer). -/
def c3Lx1 : Lexer :=
  { input := c3Src.data, pos := 1, fstrNote := '$', buffer := [] }

/-- The state in which the `${...}` sub-scan of lexer_fstr starts: the
cursor sits on the `2` (pos 10) and the FIFO buffer holds the four
buffered format-string tokens. -/
def c3Stuck (b : List Token) : Lexer :=
  { input := c3Src.data, pos := 10, fstrNote := '$', buffer := b }

/-- The four tokens buffered before the `${...}` sub-scan begins. -/
def c3Buf : List Token :=
  [⟨.fstrStart, "f\""⟩, ⟨.fstrPart, "hello "⟩, ⟨.fstrNote, "$"⟩,
   ⟨.lbrace, "\x7b"⟩]

/-- The state in which the format-string scanning loop starts (cursor on
the `h`, FSTR_START buffered). -/
def c3LxA : Lexer :=
  { input := c3Src.data, pos := 2, fstrNote := '$', buffer := [⟨.fstrStart, "f\""⟩] }

/-- The `${expr}` sub-scan never terminates from the stuck state: the
current character `2` is not a brace, so the depth never changes, and
lexer_next — the buffer being non-empty — only pops the front token,
which is pushed right back; the cursor never advances.  Whatever fuel
and whatever level of lexing routines, the loop only exhausts its
fuel. -/
theorem c3_brace_stuck : ∀ (fuel n : Nat) (b : List Token), b ≠ [] →
    fstr_brace_loop_body (lexFns n) fuel (c3Stuck b) 1 = none := by
  intro fuel
  induction fuel with
  | zero => intro n b hb; rfl
  | succ f ih =>
    intro n b hb
    cases b with
    | nil => exact absurd rfl hb
    | cons t rest =>
      cases n with
      | zero => rfl
      | succ m =>
        have step : fstr_brace_loop_body (lexFns (m+1)) (f+1) (c3Stuck (t :: rest)) 1
            = fstr_brace_loop_body (lexFns (m+1)) f (c3Stuck (rest ++ [t])) 1 := rfl
        rw [step]
        exact ih (m+1) (rest ++ [t]) (by simp)

/-- The format-string scanning loop on `f"hello ${2}"` diverges: after
accumulating "hello " it reaches the `${` and enters the brace sub-scan
in the stuck state, which never terminates. -/
theorem c3_scan_stuck : ∀ m, fstr_scan_body (lexFns m) m c3LxA false '"' [] = none := by
  intro m
  match m with
  | 0 => rfl
  | 1 => rfl
  | 2 => rfl
  | 3 => rfl
  | 4 => rfl
  | 5 => rfl
  | 6 => rfl
  | (k+7) =>
    have step : fstr_scan_body (lexFns (k+7)) (k+7) c3LxA false '"' []
        = (match fstr_brace_loop_body (lexFns (k+6)) (k+6) (c3Stuck c3Buf) 1 with
           | none => none
           | some lx5 => (lexFns (k+7)).fscan lx5 false '"' []) := rfl
    rw [step, c3_brace_stuck (k+6) (k+6) c3Buf (by simp [c3Buf])]

/-- After the `f` identifier token, lexer_next never returns on this
input, whatever the fuel: it enters the format-string scan and
diverges. -/
theorem c3_next_stuck : ∀ fuel, lexer_next fuel c3Lx1 = none := by
  intro fuel
  match fuel with
  | 0 => rfl
  | 1 => rfl
  | (m+2) =>
    have step : lexer_next (m+2) c3Lx1
        = fstr_scan_body (lexFns m) m c3LxA false '"' [] := rfl
    rw [step]
    exact c3_scan_stuck m

/-- C3: the claim says lexing `f"hello ${2}"` produces exactly
FSTR_START, FSTR_PART("hello "), FSTR_NOTE, LBRACE, INT(2), RBRACE,
FSTR_END with nothing before FSTR_START.  In the code the first token
produced is IDENT("f") — the lexer only recognizes the format string
when the cursor reaches the quote, after the identifier scan already
consumed the `f` — and the second lexer_next call never returns (the
`${...}` sub-scan rotates the token buffer forever), so tokenization of
this input diverges and no FSTR token sequence is ever delivered. -/
theorem claim_c3 :
    lexer_next 4 (lexer_new c3Src) = some (⟨.ident, "f"⟩, c3Lx1) ∧
    (∀ fuel, lexer_next fuel c3Lx1 = none) ∧
    (∀ fuel, tokenize fuel (lexer_new c3Src) [] = none) ∧
    lex_program c3Src = none := by
  have htok : ∀ fuel, tokenize fuel (lexer_new c3Src) [] = none := by
    intro fuel
    match fuel with
    | 0 => rfl
    | 1 => rfl
    | (g+2) =>
      have step : tokenize (g+2) (lexer_new c3Src) []
          = tokenize (g+1) c3Lx1 [⟨.ident, "f"⟩] := rfl
      have step2 : tokenize (g+1) c3Lx1 [⟨.ident, "f"⟩]
          = (match lexer_next g c3Lx1 with
             | none => none
             | some (t, lx') =>
               if t.kind = .eof then some [⟨.ident, "f"⟩]
               else tokenize g lx' [⟨.ident, "f"⟩, t]) := rfl
      rw [step, step2, c3_next_stuck g]
  exact ⟨rfl, c3_next_stuck, htok, htok (c3Src.length + 16)⟩

/-! ## C5: universe_set against the spec's parent-chain description -/

/-- The parent chain from a scope id is well formed: every link resolves
in the registry and the chain reaches a scope without a parent within
the fuel (this is what the C walk needs in order to terminate). -/
def chain_ok (scopes : List Scope) : Nat → String → Bool
  | 0, _ => false
  | n+1, sid =>
    match findScope scopes sid with
    | none => false
    | some sc =>
      match sc.parent with
      | none => true
      | some p =>
        match findScope scopes p with
        | some _ => chain_ok scopes n p
        | none => false

/-- The list of scopes along the parent chain from a scope id, nearest
first. -/
def parent_chain (scopes : List Scope) : Nat → String → List Scope
  | 0, _ => []
  | n+1, sid =>
    match findScope scopes sid with
    | none => []
    | some sc =>
      sc :: (match sc.parent with
        | none => []
        | some p =>
          match findScope scopes p with
          | some _ => parent_chain scopes n p
          | none => [])

/-- universe_set as the spec words it (§4.4): walk the parent chain from
the current scope looking for an existing binding of the name; if some
chain scope has one, overwrite that nearest binding in place; if no
scope in the chain has the name, create a new binding in the current
scope. -/
def universe_set_spec (u : Universe) (name : String) (v : Value) : Universe :=
  match (parent_chain u.scopes (u.scopes.length + 1) u.currentSid).find?
      (fun sc => sc.binds.any (fun p => p.1 == name)) with
  | some sc =>
    { u with scopes := (updateScope u.scopes sc.sid
        (fun s => { s with binds := bindsReplace s.binds name v })) }
  | none =>
    { u with scopes := (updateScope u.scopes u.currentSid
        (fun s => { s with binds := scope_set s.binds name v })) }

/-- The embedded universe_set walk agrees, link by link, with the
chain-based description, for every starting scope id whose chain is
well formed within the given fuel. -/
theorem universe_set_loop_refines (u : Universe) (name : String) (v : Value) :
    ∀ (n : Nat) (sid : String), chain_ok u.scopes n sid = true →
    universe_set_loop u name v n sid
      = some (match (parent_chain u.scopes n sid).find?
            (fun sc => sc.binds.any (fun p => p.1 == name)) with
        | some sc =>
          { u with scopes := (updateScope u.scopes sc.sid
              (fun s => { s with binds := bindsReplace s.binds name v })) }
        | none =>
          { u with scopes := (updateScope u.scopes u.currentSid
              (fun s => { s with binds := scope_set s.binds name v })) }) := by
  intro n
  induction n with
  | zero => intro sid h; simp [chain_ok] at h
  | succ m ih =>
    intro sid h
    simp only [chain_ok] at h
    cases hf : findScope u.scopes sid with
    | none => rw [hf] at h; simp at h
    | some sc =>
      rw [hf] at h
      have hsid : sc.sid = sid := by
        have h2 : u.scopes.find? (fun x => x.sid == sid) = some sc := hf
        have h3 := List.find?_some h2
        simpa using h3
      have h1 : (match sc.parent with
          | none => true
          | some p =>
            match findScope u.scopes p with
            | some _ => chain_ok u.scopes m p
            | none => false) = true := h
      simp only [universe_set_loop, parent_chain, hf]
      cases hb : sc.binds.any (fun p => p.1 == name) with
      | true => simp [List.find?_cons, hb, hsid]
      | false =>
        cases hp : sc.parent with
        | none => simp [List.find?_cons, hb, hp, List.find?]
        | some p =>
          cases hpf : findScope u.scopes p with
          | none => rw [hp] at h1; simp [hpf] at h1
          | some ps =>
            rw [hp] at h1
            have h2 : chain_ok u.scopes m p = true := by simpa [hpf] using h1
            simpa [List.find?_cons, hb, hp, hpf] using ih p h2

/-- C5: universe_set walks the parent chain from the current scope; a
name bound somewhere along the chain has its nearest enclosing binding
overwritten in place, and a name bound nowhere in the chain is created
in the current scope — so assigning in a nested block to an outer name
mutates the outer binding (the spec's block program returns the updated
outer value). -/
theorem claim_c5 :
    (∀ (u : Universe) (name : String) (v : Value),
      chain_ok u.scopes (u.scopes.length + 1) u.currentSid = true →
      universe_set u name v = some (universe_set_spec u name v)) ∧
    eval_program c5Src = some (.int 2) :=
  ⟨fun u name v h => universe_set_loop_refines u name v _ _ h,
   run_program_eq _ c5Toks c5Code _ rfl rfl rfl⟩

/-- A two-scope universe: the global scope binds `x`, and an entered
block scope is current. -/
def c5U : Universe :=
  { scopes := [⟨.global, "", none, [("x", .int 1)]⟩,
               ⟨.block, "block_0", some "", []⟩],
    currentSid := "block_0",
    counter := 1 }

/-- C5 witness: in the two-scope universe the chain is well formed, and
setting `x` from the inner block matches the spec's description (the
outer binding is overwritten in place). -/
theorem claim_c5_witness :
    chain_ok c5U.scopes (c5U.scopes.length + 1) c5U.currentSid = true ∧
    universe_set c5U "x" (.int 2) = some (universe_set_spec c5U "x" (.int 2)) :=
  ⟨rfl, claim_c5.1 c5U "x" (.int 2) rfl⟩

end AutoLang
